import Mathlib

/-!
Shallow embedding of the OpenManus sandbox subsystem
(app/sandbox/core/terminal.py, app/sandbox/core/sandbox.py,
app/sandbox/client.py, app/tool/bash.py) and theorems checking the
natural-language specification against it.

Python byte strings and text strings are modelled as lists of
characters; all inputs of interest are ASCII so byte-level and
character-level processing coincide.
-/

set_option autoImplicit false

namespace OpenManus

/-- Character-list strings, the carrier for all path/command processing. -/
abbrev Str := List Char

/-- Embed a Lean string literal as a character list. -/
def str (s : String) : Str := s.data

/-- The slash character test used throughout the path functions. -/
def isSlash (c : Char) : Bool := c == '/'

/-- ASCII whitespace, the character class stripped by Python strip(). -/
def isWsChar (c : Char) : Bool :=
  c == ' ' || c == '\t' || c == '\n' || c == '\r' ||
  c == '\x0b' || c == '\x0c'

/-- Python s.lstrip(): drop leading whitespace. -/
def lstripWs (s : Str) : Str := s.dropWhile isWsChar

/-- Python s.rstrip(): drop trailing whitespace. -/
def rstripWs (s : Str) : Str := (s.reverse.dropWhile isWsChar).reverse

/-- Python s.strip(): drop whitespace at both ends. -/
def stripWs (s : Str) : Str := rstripWs (lstripWs s)

/-- Python line.rstrip(b"\r"): drop all trailing carriage returns. -/
def rstripCr (s : Str) : Str := (s.reverse.dropWhile (fun c => c == '\r')).reverse

/-- Python s.isdigit() for ASCII byte strings: nonempty and all digits. -/
def isDigitStr (s : Str) : Bool := !s.isEmpty && s.all Char.isDigit

/-- Whether t is a prefix of s (both explicit, character by character). -/
def strStartsWith : Str → Str → Bool
  | _, [] => true
  | [], _ :: _ => false
  | a :: as, b :: bs => a == b && strStartsWith as bs

/-- Whether t is a suffix of s: Python s.endswith(t). -/
def strEndsWith (s t : Str) : Bool := strStartsWith s.reverse t.reverse

/-- Python substring containment: pat in s. -/
def strContains (s pat : Str) : Bool :=
  strStartsWith s pat ||
    match s with
    | [] => false
    | _ :: rest => strContains rest pat

/-- Python s.lower() restricted to the ASCII case mapping. -/
def toLowerStr (s : Str) : Str := s.map Char.toLower

/-- Python s.split(sep) for a single-character separator:
"".split yields one empty field, separators produce empty fields. -/
def splitOnChar (sep : Char) : Str → List Str
  | [] => [[]]
  | c :: cs =>
    if c == sep then [] :: splitOnChar sep cs
    else
      match splitOnChar sep cs with
      | [] => [[c]]
      | s :: rest => (c :: s) :: rest

/-- Join lines with a newline separator (inverse direction of splitting). -/
def joinNl : List Str → Str
  | [] => []
  | [l] => l
  | l :: rest => l ++ '\n' :: joinNl rest

/-! ## Python exception values

Each constructor embeds one exception class raised by the sandbox code,
carrying the formatted message. -/

/-- Decidable equality on Except values, for concrete evaluations. -/
instance exceptDecEq {ε α : Type} [DecidableEq ε] [DecidableEq α] :
    DecidableEq (Except ε α)
  | .ok a, .ok b =>
    if h : a = b then .isTrue (by rw [h]) else .isFalse (by intro g; cases g; exact h rfl)
  | .error a, .error b =>
    if h : a = b then .isTrue (by rw [h]) else .isFalse (by intro g; cases g; exact h rfl)
  | .ok _, .error _ => .isFalse (by intro g; cases g)
  | .error _, .ok _ => .isFalse (by intro g; cases g)

/-- Exception classes appearing in the sandbox modules. -/
inductive PyErr where
  | valueError (msg : Str)
  | runtimeError (msg : Str)
  | timeoutError (msg : Str)
  | fileNotFound (msg : Str)
  | toolError (msg : Str)
deriving DecidableEq, Repr

/-- Python str(e): the message text used when an exception is interpolated
into a wrapping f-string. -/
def errMsg : PyErr → Str
  | .valueError m => m
  | .runtimeError m => m
  | .timeoutError m => m
  | .fileNotFound m => m
  | .toolError m => m

/-! ## DockerSession (app/sandbox/core/terminal.py)

The command sanitizer, the output-reading loop of execute, and the
session state.  The socket is modelled by an oracle: the list of byte
chunks recv returns for the current command (an empty chunk means the
stream closed), plus a flag saying whether the wait-for deadline fires
before the read loop completes. -/

/-- The risky_commands deny list of DockerSession._sanitize_command. -/
def riskyCommands : List Str :=
  [str "rm -rf /", str "rm -rf /*", str "mkfs", str "dd if=/dev/zero",
   str ":(){:|:&};:", str "chmod -R 777 /", str "chown -R"]

/-- First deny-list entry contained in the lower-cased command, if any. -/
def findRisky (command : Str) : Option Str :=
  riskyCommands.find? (fun r => strContains (toLowerStr command) r)

/-- Python command.replace("'", "'\\''"): escape single quotes. -/
def replaceQuote : Str → Str
  | [] => []
  | c :: cs =>
    if c == '\'' then '\'' :: '\\' :: '\'' :: '\'' :: replaceQuote cs
    else c :: replaceQuote cs

/-- DockerSession._sanitize_command: deny-list check, then quote escaping. -/
def sanitizeCommand (command : Str) : Except PyErr Str :=
  match findRisky command with
  | some risky =>
    .error (.valueError
      (str "Command contains potentially dangerous operation: " ++ risky))
  | none => .ok (replaceQuote command)

/-- The command line written to the socket by execute. -/
def fullCommandOf (sanitized : Str) : Str :=
  str "bash -c '" ++ sanitized ++ str "' && echo $?" ++ ['\n']

/-- Mutable locals of the read_output loop inside execute. -/
structure RdState where
  buffer : Str
  res : List Str
  commandSent : Bool
deriving DecidableEq, Repr

/-- Processing of one complete line inside read_output: skip the echoed
command line, drop exit-probe and all-digit lines, keep nonblank lines. -/
def procLine (st : RdState) (rawLine : Str) : RdState :=
  let line := rstripCr rawLine
  if !st.commandSent then { st with commandSent := true }
  else if stripWs line == str "echo $?" || isDigitStr (stripWs line) then st
  else if stripWs line ≠ [] then { st with res := st.res ++ [line] }
  else st

/-- Processing of one received chunk: append to the buffer, split on
newlines, handle every complete line, retain the trailing partial line. -/
def procChunk (st : RdState) (chunk : Str) : RdState :=
  let parts := splitOnChar '\n' (st.buffer ++ chunk)
  let st' := parts.dropLast.foldl procLine { st with buffer := [] }
  { st' with buffer := parts.getLastD [] }

/-- The command-completion test: buffer.endswith(b"$ "). -/
def endsWithPrompt (buffer : Str) : Bool := strEndsWith buffer (str "$ ")

/-- Model of the trailing regex substitution of read_output (removing a
match of newline, "$ echo $", optional "$", rest-of-line) on the joined
kept lines: the pattern needs a newline before a final line beginning
with the echo-probe text, so it can only remove the last of two or more
lines (kept lines are never empty, so the dollar anchor must sit at the
end of the string). -/
def stripEchoTail (lines : List Str) : List Str :=
  if lines.length ≥ 2 && strStartsWith (lines.getLastD []) (str "$ echo $")
  then lines.dropLast else lines

/-- Result text assembled when the prompt marker has been reached. -/
def finishRead (st : RdState) : Str := joinNl (stripEchoTail st.res)

/-- The read_output loop of execute, driven by the chunk oracle.  An
empty chunk models recv returning b"" (closed stream); an exhausted
oracle models a read that never becomes ready. -/
def readOutputGo (st : RdState) : List Str → Except PyErr Str
  | [] => .error (.runtimeError (str "socket never became ready"))
  | chunk :: rest =>
    if chunk = [] then
      if endsWithPrompt st.buffer then .ok (finishRead st)
      else .error (.runtimeError (str "Socket closed unexpectedly"))
    else
      let st' := procChunk st chunk
      if endsWithPrompt st'.buffer then .ok (finishRead st')
      else readOutputGo st' rest

/-- read_output started from the initial locals. -/
def readOutput (stream : List Str) : Except PyErr Str :=
  readOutputGo ⟨[], [], false⟩ stream

/-- Python truthiness of the timeout argument: if timeout: uses wait_for. -/
def timeoutActive : Option Nat → Bool
  | some t => t != 0
  | none => false

/-- DockerSession state visible to execute: whether the socket is open
and the trace of byte strings written to it.  The source class has no
other per-command state — in particular no timed-out flag. -/
structure DockerSessionState where
  socketOpen : Bool
  sent : List Str
deriving DecidableEq, Repr

/-- DockerSession.execute.  timesOut says whether the wait-for deadline
fires (only possible when a truthy timeout was supplied); stream is the
socket oracle for the read loop. -/
def dockerExecute (st : DockerSessionState) (command : Str)
    (timeout : Option Nat) (timesOut : Bool) (stream : List Str) :
    Except PyErr Str × DockerSessionState :=
  if !st.socketOpen then
    (.error (.runtimeError (str "Session not initialized")), st)
  else
    match sanitizeCommand command with
    | .error e =>
      (.error (.runtimeError (str "Failed to execute command: " ++ errMsg e)), st)
    | .ok sanitized =>
      let st' := { st with sent := st.sent ++ [fullCommandOf sanitized] }
      if timeoutActive timeout && timesOut then
        (.error (.timeoutError
          (str "Command execution timed out after " ++
            Nat.toDigits 10 (timeout.getD 0) ++ str " seconds")), st')
      else
        match readOutput stream with
        | .ok out => (.ok (stripWs out), st')
        | .error e =>
          (.error (.runtimeError
            (str "Failed to execute command: " ++ errMsg e)), st')

/-! ## _BashSession (app/tool/bash.py)

The tool-level bash session.  Its output channel is modelled by an
oracle: none means the sentinel never appears in the stdout buffer
before the fixed timeout elapses, some buf gives the buffer contents
once the sentinel has appeared. -/

/-- The fixed output sentinel of _BashSession. -/
def bashSentinel : Str := str "<<exit>>"

/-- State of a _BashSession: started flag, exit code of the underlying
process if it has exited, and the timed-out latch. -/
structure BashState where
  started : Bool
  returncode : Option Int
  timedOut : Bool
deriving DecidableEq, Repr

/-- Results of _BashSession.run: a raised ToolError, a ToolResult with a
system/error pair, or a CLIResult with output and error text. -/
inductive BashOut where
  | toolErr (msg : Str)
  | sysResult (system errText : Str)
  | cli (output errText : Str)
deriving DecidableEq, Repr

/-- The timed-out ToolError message of _BashSession.run. -/
def bashTimeoutMsg : Str :=
  str "timed out: bash has not returned in 120.0 seconds and must be restarted"

/-- Python output[:output.index(pat)]: the text before the leftmost
occurrence of pat (the whole text when pat is absent). -/
def takeBefore (pat : Str) : Str → Str
  | [] => []
  | c :: cs =>
    if strStartsWith (c :: cs) pat then []
    else c :: takeBefore pat cs

/-- Python output[:-1] applied when output.endswith("\n"). -/
def dropTrailingNl (s : Str) : Str :=
  if strEndsWith s (str "\n") then s.dropLast else s

/-- _BashSession.run.  stdoutBuf is none when the sentinel never shows
up within the timeout (the read loop is cancelled), some buf when the
loop finds the sentinel inside buf; stderrBuf is the stderr buffer. -/
def bashRun (st : BashState) (stdoutBuf : Option Str) (stderrBuf : Str) :
    BashOut × BashState :=
  if !st.started then (.toolErr (str "Session has not started."), st)
  else
    match st.returncode with
    | some _ =>
      (.sysResult (str "tool must be restarted")
        (str "bash has exited with returncode"), st)
    | none =>
      if st.timedOut then (.toolErr bashTimeoutMsg, st)
      else
        match stdoutBuf with
        | none => (.toolErr bashTimeoutMsg, { st with timedOut := true })
        | some buf =>
          let output := dropTrailingNl (takeBefore bashSentinel buf)
          let errText := dropTrailingNl stderrBuf
          (.cli output errText, st)

/-- A freshly started session, as produced by the restart branch of
Bash.execute (new _BashSession, then start). -/
def bashFreshSession : BashState := ⟨true, none, false⟩

/-! ## Path handling (app/sandbox/core/sandbox.py)

Faithful models of the posix os.path functions the sandbox uses, plus
DockerSandbox._safe_resolve_path. -/

/-- os.path.isabs on posix: the path starts with a slash. -/
def isAbsPath : Str → Bool
  | [] => false
  | c :: _ => isSlash c

/-- os.path.join(a, b) on posix for two arguments. -/
def osPathJoin (a b : Str) : Str :=
  if isAbsPath b then b
  else if a = [] || strEndsWith a (str "/") then a ++ b
  else a ++ '/' :: b

/-- os.path.basename on posix: the part after the last slash. -/
def osBasename (p : Str) : Str :=
  (p.reverse.takeWhile (fun c => !isSlash c)).reverse

/-- os.path.dirname on posix: the part before the last slash, with
trailing slashes removed unless the head is all slashes. -/
def osDirname (p : Str) : Str :=
  let headRev := p.reverse.dropWhile (fun c => !isSlash c)
  if headRev.all isSlash then headRev.reverse
  else (headRev.dropWhile isSlash).reverse

/-- DockerSandbox._safe_resolve_path: reject any ".." segment of the
slash-split path, then resolve relative paths against the work dir. -/
def safeResolvePath (workDir p : Str) : Except PyErr Str :=
  if str ".." ∈ splitOnChar '/' p then
    .error (.valueError (str "Path contains potentially unsafe patterns"))
  else
    .ok (if isAbsPath p then p else osPathJoin workDir p)

/-! ## Container filesystem and archive transfer

The container's file tree, as observed through Docker's get_archive and
put_archive, is a map from paths to file contents.  POSIX path
resolution inside the container identifies paths up to repeated
slashes, so keys are normalized to (absolute?, nonempty segments).
A tar archive is a list of (member name, contents) pairs. -/

/-- The nonempty slash-separated segments of a path (POSIX resolution
ignores repeated slashes). -/
def normSegs (p : Str) : List Str :=
  (splitOnChar '/' p).filter (fun s => s ≠ [])

/-- Normalized form of a container path. -/
def normPath (p : Str) : Bool × List Str :=
  (isAbsPath p, normSegs p)

/-- Container file store keyed by normalized paths. -/
def Cfs := (Bool × List Str) → Option Str

/-- The empty container file store. -/
def emptyCfs : Cfs := fun _ => none

/-- Update a container file store at one normalized key. -/
def cfsPut (fs : Cfs) (k : Bool × List Str) (v : Str) : Cfs :=
  fun k' => if k' = k then some v else fs k'

/-- Joining an archive member name onto the extraction directory. -/
def tarJoinName (dir name : Str) : Str :=
  if strEndsWith dir (str "/") then dir ++ name else dir ++ '/' :: name

/-- docker put_archive(dir, tar): extract every member under dir. -/
def putArchive (fs : Cfs) (dir : Str) (tar : List (Str × Str)) : Cfs :=
  tar.foldl (fun f e => cfsPut f (normPath (tarJoinName dir e.1)) e.2) fs

/-- docker get_archive(p): a single-member archive named after the base
name of p, or engine not-found when no file is stored there. -/
def getArchive (fs : Cfs) (p : Str) : Option (List (Str × Str)) :=
  match fs (normPath p) with
  | some c => some [(osBasename p, c)]
  | none => none

/-- DockerSandbox._read_from_tar: contents of the first member, or a
RuntimeError on an empty archive. -/
def readFromTar (tar : List (Str × Str)) : Except PyErr Str :=
  match tar with
  | [] => .error (.runtimeError (str "Empty tar archive"))
  | e :: _ => .ok e.2

/-! ## DockerSandbox (app/sandbox/core/sandbox.py)

Sandbox state: whether the instance holds a container reference and a
terminal reference, and the container file store.  Engine-side actions
that always succeed in a healthy engine (mkdir execution, archive
upload) are modelled as such; the code's own control flow — guard
checks, the sanitizer gate every run_command passes through, exception
translation and wrapping — is embedded faithfully. -/

/-- The sandbox instance state used by the file and lifecycle methods. -/
structure SbState where
  container : Bool
  terminal : Bool
  cfs : Cfs

/-- sandbox.run_command routed through the terminal session for the
internal mkdir/test commands of the file operations: not-initialized
guard, then the DockerSession sanitizer gate; the engine itself is
assumed to execute a sanitizer-approved command successfully. -/
def runCommandGate (st : SbState) (command : Str) : Except PyErr Unit :=
  if !st.terminal then .error (.runtimeError (str "Sandbox not initialized"))
  else
    match findRisky command with
    | some risky =>
      .error (.runtimeError (str "Failed to execute command: " ++
        errMsg (.valueError
          (str "Command contains potentially dangerous operation: " ++ risky))))
    | none => .ok ()

/-- Outcome of the engine's get_archive call, as seen by read_file:
not-found, a (possibly corrupt or empty) archive, or another failure
while fetching or unpacking the stream. -/
inductive EngineGet where
  | notFound
  | archive (tar : List (Str × Str))
  | failure (msg : Str)
deriving DecidableEq, Repr

/-- DockerSandbox.read_file with the engine outcome supplied explicitly:
initialization guard, path resolution, then translation of engine
not-found to FileNotFoundError and of every other failure to a wrapped
RuntimeError. -/
def readFileEng (st : SbState) (workDir p : Str) (eng : EngineGet) :
    Except PyErr Str :=
  if !st.container then .error (.runtimeError (str "Sandbox not initialized"))
  else
    match safeResolvePath workDir p with
    | .error e =>
      .error (.runtimeError (str "Failed to read file: " ++ errMsg e))
    | .ok _ =>
      match eng with
      | .notFound => .error (.fileNotFound (str "File not found: " ++ p))
      | .failure m =>
        .error (.runtimeError (str "Failed to read file: " ++ m))
      | .archive tar =>
        match readFromTar tar with
        | .ok content => .ok content
        | .error e =>
          .error (.runtimeError (str "Failed to read file: " ++ errMsg e))

/-- The engine outcome determined by the container file store. -/
def engOf (fs : Cfs) (resolved : Str) : EngineGet :=
  match getArchive fs resolved with
  | some tar => .archive tar
  | none => .notFound

/-- DockerSandbox.read_file against the container file store (the
engine outcome is irrelevant when path resolution already failed). -/
def readFile (st : SbState) (workDir p : Str) : Except PyErr Str :=
  readFileEng st workDir p
    (match safeResolvePath workDir p with
     | .ok resolved => engOf st.cfs resolved
     | .error _ => .notFound)

/-- DockerSandbox.write_file: initialization guard, path resolution,
mkdir of the parent directory through run_command (and hence through
the command sanitizer), then upload of a single-member archive into the
parent directory, every failure wrapped as a RuntimeError. -/
def writeFile (st : SbState) (workDir p content : Str) :
    Except PyErr Unit × SbState :=
  if !st.container then
    (.error (.runtimeError (str "Sandbox not initialized")), st)
  else
    match safeResolvePath workDir p with
    | .error e =>
      (.error (.runtimeError (str "Failed to write file: " ++ errMsg e)), st)
    | .ok resolved =>
      let parent := osDirname resolved
      match (if parent ≠ [] then runCommandGate st (str "mkdir -p " ++ parent)
             else .ok ()) with
      | .error e =>
        (.error (.runtimeError (str "Failed to write file: " ++ errMsg e)), st)
      | .ok _ =>
        let tar := [(osBasename p, content)]
        let dir := if parent = [] then str "/" else parent
        (.ok (), { st with cfs := putArchive st.cfs dir tar })

/-- Which teardown sub-steps of cleanup fail (cleanup swallows them). -/
structure TeardownFail where
  closeF : Bool
  stopF : Bool
  removeF : Bool
deriving DecidableEq, Repr

/-- DockerSandbox.cleanup: close the terminal if held, then stop and
remove the container if held; each sub-step is guarded on its own, its
error only appended to the diagnostics list, and the reference is
dropped in a finally block. -/
def sbCleanup (st : SbState) (f : TeardownFail) : SbState × List Str :=
  let stepT :=
    if st.terminal then
      ({ st with terminal := false },
        if f.closeF then [str "Terminal cleanup error"] else [])
    else (st, ([] : List Str))
  let st1 := stepT.1
  let stepC :=
    if st1.container then
      ({ st1 with container := false },
        (if f.stopF then [str "Container stop error"] else []) ++
        (if f.removeF then [str "Container remove error"] else []))
    else (st1, ([] : List Str))
  (stepC.1, stepT.2 ++ stepC.2)

/-- The step of DockerSandbox.create at which a failure occurs. -/
inductive CreateStep where
  | hostConfig
  | createContainer
  | startContainer
  | terminalInit
deriving DecidableEq, Repr

/-- The cause text carried by the failing create step. -/
def createCause : CreateStep → Str
  | .hostConfig => str "host config error"
  | .createContainer => str "container create error"
  | .startContainer => str "container start error"
  | .terminalInit => str "terminal init error"

/-- DockerSandbox.create: host config, container create, container
start, terminal construction and init, in order; the container
reference is set once the engine returns it and the terminal reference
before its init runs.  Any failure triggers cleanup on the partial
state and a single wrapped RuntimeError carrying the cause. -/
def sbCreate (st0 : SbState) (fail : Option CreateStep) (f : TeardownFail) :
    Except PyErr Unit × SbState :=
  let wrap := fun (step : CreateStep) (s : SbState) =>
    ((.error (.runtimeError
        (str "Failed to create sandbox: " ++ createCause step)) :
      Except PyErr Unit),
     (sbCleanup s f).1)
  if fail = some .hostConfig then wrap .hostConfig st0
  else if fail = some .createContainer then wrap .createContainer st0
  else
    let s1 := { st0 with container := true }
    if fail = some .startContainer then wrap .startContainer s1
    else
      let s2 := { s1 with terminal := true }
      if fail = some .terminalInit then wrap .terminalInit s2
      else (.ok (), s2)

/-! ## Host-side filesystem and the copy operations

The host filesystem seen by copy_from/copy_to: a map from raw paths to
file contents, the set of existing directories, and — for directory
uploads — the os.walk view of a directory as (relative path, contents)
entries.  Host paths are deliberately NOT normalized or validated here,
mirroring that the source never passes them through the path check. -/

/-- Host filesystem state. -/
structure HostFs where
  files : Str → Option Str
  dirs : List Str
  tree : Str → List (Str × Str)

/-- Update the host file map at one raw path. -/
def hfsPut (fl : Str → Option Str) (k v : Str) : Str → Option Str :=
  fun k' => if k' = k then some v else fl k'

/-- os.path.exists on the host. -/
def hostExists (h : HostFs) (p : Str) : Bool :=
  (h.files p).isSome || h.dirs.contains p

/-- os.path.isdir on the host. -/
def hostIsDir (h : HostFs) (p : Str) : Bool := h.dirs.contains p

/-- DockerSandbox.copy_from: make the host destination's parent
directory (no validation of the host path), resolve and validate the
container source, fetch its archive, then extract — all of a directory
under a directory destination, or the single member into a file
destination.  Engine not-found becomes FileNotFoundError, everything
else a wrapped RuntimeError. -/
def copyFrom (st : SbState) (h : HostFs) (workDir src dst : Str) :
    Except PyErr Unit × HostFs :=
  let parent := osDirname dst
  let h1 := if parent ≠ [] then { h with dirs := parent :: h.dirs } else h
  match safeResolvePath workDir src with
  | .error e =>
    (.error (.runtimeError (str "Failed to copy file: " ++ errMsg e)), h1)
  | .ok rsrc =>
    if !st.container then
      (.error (.runtimeError
        (str "Failed to copy file: container not attached")), h1)
    else
      match getArchive st.cfs rsrc with
      | none => (.error (.fileNotFound (str "Source file not found: " ++ src)), h1)
      | some tar =>
        if tar.isEmpty then
          (.error (.runtimeError
            (str "Failed to copy file: Source file is empty: " ++ src)), h1)
        else if hostIsDir h1 dst then
          let files' :=
            tar.foldl (fun fl e => hfsPut fl (tarJoinName dst e.1) e.2) h1.files
          (.ok (), { h1 with files := files' })
        else if tar.length > 1 then
          (.error (.runtimeError
            (str "Failed to copy file: Source path is a directory but destination is a file: "
              ++ src)), h1)
        else
          (.ok (), { h1 with files := hfsPut h1.files dst (tar.headD ([], [])).2 })

/-- The archive built by copy_to: for a host directory source the
walked entries placed under the destination's base name, otherwise the
single host file stored under the destination's base name. -/
def copyToTar (h : HostFs) (src dst : Str) : List (Str × Str) :=
  if hostIsDir h src then
    (h.tree src).map (fun e => (osPathJoin (osBasename dst) e.1, e.2))
  else [(osBasename dst, (h.files src).getD [])]

/-- DockerSandbox.copy_to: existence check on the host source (its only
check — no path validation), resolve and validate the container
destination, mkdir its parent through run_command, upload the archive,
then verify by running test -e through run_command. -/
def copyTo (st : SbState) (h : HostFs) (workDir src dst : Str) :
    Except PyErr Unit × SbState :=
  if !hostExists h src then
    (.error (.fileNotFound (str "Source file not found: " ++ src)), st)
  else
    match safeResolvePath workDir dst with
    | .error e =>
      (.error (.runtimeError (str "Failed to copy file: " ++ errMsg e)), st)
    | .ok rdst =>
      let cdir := osDirname rdst
      match (if cdir ≠ [] then runCommandGate st (str "mkdir -p " ++ cdir)
             else .ok ()) with
      | .error e =>
        (.error (.runtimeError (str "Failed to copy file: " ++ errMsg e)), st)
      | .ok _ =>
        let dir := if cdir = [] then str "/" else cdir
        let st1 := { st with cfs := putArchive st.cfs dir (copyToTar h src dst) }
        match runCommandGate st1 (str "test -e " ++ rdst) with
        | .error _ =>
          (.error (.runtimeError
            (str "Failed to copy file: Failed to verify file creation: " ++ dst)),
           st1)
        | .ok _ => (.ok (), st1)

/-! ## Sample states for concrete evaluations -/

/-- Sample container store holding one file under the work dir. -/
def cfsSample : Cfs :=
  cfsPut emptyCfs (normPath (str "/workspace/data.txt")) (str "payload")

/-- Sample initialized sandbox state over the sample container store. -/
def sbSample : SbState := ⟨true, true, cfsSample⟩

/-- Initialized sandbox state with an empty container store. -/
def sbEmpty : SbState := ⟨true, true, emptyCfs⟩

/-- Empty host filesystem. -/
def hostEmpty : HostFs := ⟨fun _ => none, [], fun _ => []⟩

/-- Host filesystem holding one file at a path with a ".." segment. -/
def hostSample : HostFs :=
  ⟨hfsPut (fun _ => none) (str "/host/../secrets/key.txt") (str "hostdata"),
   [], fun _ => []⟩

/-! ## Helper lemmas on the string functions -/

theorem splitOnChar_ne_nil (sep : Char) (s : Str) : splitOnChar sep s ≠ [] := by
  induction s with
  | nil => simp [splitOnChar]
  | cons c cs ih =>
    simp only [splitOnChar]
    by_cases h : c == sep
    · simp [h]
    · simp only [h]
      cases hs : splitOnChar sep cs with
      | nil => simp
      | cons a rest => simp

theorem splitOnChar_append (sep : Char) (a b : Str) :
    splitOnChar sep (a ++ sep :: b) = splitOnChar sep a ++ splitOnChar sep b := by
  induction a with
  | nil => simp [splitOnChar]
  | cons c cs ih =>
    simp only [List.cons_append, splitOnChar]
    by_cases h : c == sep
    · simp [h, ih]
    · simp only [h, Bool.false_eq_true, if_false]
      cases hs : splitOnChar sep cs with
      | nil => exact absurd hs (splitOnChar_ne_nil sep cs)
      | cons x rest => rw [List.append_eq, ih, hs]; simp

theorem normSegs_nil : normSegs [] = [] := by
  simp [normSegs, splitOnChar]

theorem normSegs_append_slash (a b : Str) :
    normSegs (a ++ '/' :: b) = normSegs a ++ normSegs b := by
  simp [normSegs, splitOnChar_append]

theorem normSegs_slashes (w b : Str) (hw : ∀ c ∈ w, isSlash c = true) :
    normSegs (w ++ b) = normSegs b := by
  induction w with
  | nil => simp
  | cons c w' ih =>
    have hc : c = '/' := by
      have := hw c (by simp)
      simpa [isSlash] using this
    subst hc
    have : ('/' :: w') ++ b = [] ++ '/' :: (w' ++ b) := by simp
    rw [this, normSegs_append_slash, normSegs_nil, List.nil_append]
    exact ih (fun c hc => hw c (by simp [hc]))

theorem takeWhile_no_slash_append (xs ys : Str) :
    (xs ++ '/' :: ys).takeWhile (fun c => !isSlash c)
      = xs.takeWhile (fun c => !isSlash c) := by
  induction xs with
  | nil => simp [List.takeWhile, isSlash]
  | cons c cs ih =>
    by_cases h : isSlash c
    · simp [List.takeWhile_cons, h]
    · simp [List.takeWhile_cons, h, ih]

theorem dropWhile_no_slash_append (xs ys : Str) :
    (xs ++ '/' :: ys).dropWhile (fun c => !isSlash c)
      = xs.dropWhile (fun c => !isSlash c) ++ '/' :: ys := by
  induction xs with
  | nil => simp [List.dropWhile, isSlash]
  | cons c cs ih =>
    by_cases h : isSlash c
    · simp [List.dropWhile_cons, h]
    · simp [List.dropWhile_cons, h, ih]

theorem dropWhile_head_not {p : Char → Bool} {l res : Str}
    (h : l.dropWhile p = res) (hne : res ≠ []) :
    p (res.headD ' ') = false := by
  induction l with
  | nil => exact absurd h.symm hne
  | cons c cs ih =>
    rw [List.dropWhile_cons] at h
    by_cases hc : p c
    · simp only [hc, if_true] at h
      exact ih h
    · simp only [hc, Bool.false_eq_true, if_false] at h
      subst h
      simpa using hc

theorem dropWhile_nil_all {p : Char → Bool} {l : Str}
    (h : l.dropWhile p = []) : ∀ c ∈ l, p c = true := by
  induction l with
  | nil => simp
  | cons c cs ih =>
    rw [List.dropWhile_cons] at h
    by_cases hc : p c
    · simp only [hc, if_true] at h
      intro x hx
      rcases List.mem_cons.mp hx with hx | hx
      · simpa [hx]
      · exact ih h x hx
    · simp only [hc, Bool.false_eq_true, if_false] at h
      exact absurd h (by simp)

theorem mem_takeWhile_slash {l : Str} {c : Char}
    (h : c ∈ l.takeWhile isSlash) : isSlash c = true := by
  induction l with
  | nil => simp [List.takeWhile] at h
  | cons x xs ih =>
    rw [List.takeWhile_cons] at h
    by_cases hx : isSlash x
    · simp only [hx, if_true] at h
      rcases List.mem_cons.mp h with h | h
      · subst h; exact hx
      · exact ih h
    · simp only [hx, Bool.false_eq_true, if_false] at h
      exact absurd h (by simp)

theorem endsWith_slash_decomp {s : Str} (h : strEndsWith s (str "/") = true) :
    ∃ u, s = u ++ ['/'] := by
  unfold strEndsWith at h
  cases hs : s.reverse with
  | nil => rw [hs] at h; simp [str, strStartsWith] at h
  | cons c t =>
    rw [hs] at h
    have hc : c = '/' := by
      simp [str, strStartsWith] at h
      exact h
    refine ⟨t.reverse, ?_⟩
    have := congrArg List.reverse hs
    simpa [hc] using this



theorem strStartsWith_nil (s : Str) : strStartsWith s [] = true := by
  cases s <;> rfl

theorem abs_eq_slash_cons {r : Str} (h : isAbsPath r = true) : ∃ t, r = '/' :: t := by
  cases r with
  | nil => simp [isAbsPath] at h
  | cons c t =>
    have hc : c = '/' := by simpa [isAbsPath, isSlash] using h
    exact ⟨t, by rw [hc]⟩

theorem strEndsWith_slash_head {s : Str} {c : Char} {t : Str} (h : s.reverse = c :: t) :
    strEndsWith s (str "/") = (c == '/') := by
  unfold strEndsWith
  rw [h]
  show strStartsWith (c :: t) ['/'] = (c == '/')
  simp [strStartsWith, strStartsWith_nil]

theorem strEndsWith_slash_of_all {d : Str} (hne : d ≠ [])
    (hall : ∀ c ∈ d, isSlash c = true) : strEndsWith d (str "/") = true := by
  cases hrev : d.reverse with
  | nil => exact absurd (by simpa using congrArg List.reverse hrev) hne
  | cons c t =>
    have hc : c ∈ d := by
      have : c ∈ d.reverse := by rw [hrev]; simp
      exact List.mem_reverse.mp this
    rw [strEndsWith_slash_head hrev]
    simpa [isSlash] using hall c hc

theorem dirname_reconstruct {r : Str} (hr : isAbsPath r = true) :
    isAbsPath (osDirname r) = true ∧
    normPath (tarJoinName (osDirname r) (osBasename r)) = normPath r := by
  obtain ⟨rt, rfl⟩ := abs_eq_slash_cons hr
  have hrev : ('/' :: rt).reverse = rt.reverse ++ '/' :: [] := by
    simp
  have hdW : ('/' :: rt).reverse.dropWhile (fun c => !isSlash c)
      = rt.reverse.dropWhile (fun c => !isSlash c) ++ '/' :: [] := by
    rw [hrev, dropWhile_no_slash_append]
  have htW : ('/' :: rt).reverse.takeWhile (fun c => !isSlash c)
      = rt.reverse.takeWhile (fun c => !isSlash c) := by
    rw [hrev, takeWhile_no_slash_append]
  set dwt := rt.reverse.dropWhile (fun c => !isSlash c) with hdwt
  set twt := rt.reverse.takeWhile (fun c => !isSlash c) with htwt
  have hb : osBasename ('/' :: rt) = twt.reverse := by
    unfold osBasename
    rw [htW]
  have hrt : rt = dwt.reverse ++ twt.reverse := by
    have h1 : twt ++ dwt = rt.reverse := List.takeWhile_append_dropWhile _ _
    have h2 := congrArg List.reverse h1
    simpa [List.reverse_append] using h2.symm
  by_cases hall : (dwt ++ '/' :: []).all isSlash
  · -- the head of the path is all slashes: dirname keeps it verbatim
    have hd : osDirname ('/' :: rt) = (dwt ++ '/' :: []).reverse := by
      unfold osDirname
      rw [hdW]
      simp [hall]
    have hallm : ∀ c ∈ (dwt ++ '/' :: []).reverse, isSlash c = true := by
      intro c hc
      exact (List.all_eq_true.mp hall) c (List.mem_reverse.mp hc)
    have hew : strEndsWith ((dwt ++ '/' :: []).reverse) (str "/") = true :=
      strEndsWith_slash_of_all (by simp) hallm
    constructor
    · rw [hd]
      have : (dwt ++ '/' :: []).reverse = '/' :: dwt.reverse := by simp
      rw [this]
      simp [isAbsPath, isSlash]
    · rw [hd, hb]
      unfold tarJoinName
      rw [hew]
      simp only [if_true]
      have harg : (dwt ++ '/' :: []).reverse ++ twt.reverse = '/' :: rt := by
        simp [hrt]
      rw [harg]
  · -- there is a non-slash in the head: dirname strips trailing slashes
    have hd : osDirname ('/' :: rt) = ((dwt ++ '/' :: []).dropWhile isSlash).reverse := by
      unfold osDirname
      rw [hdW]
      simp [hall]
    have htRne : (dwt ++ '/' :: []).dropWhile isSlash ≠ [] := by
      intro h
      exact hall (List.all_eq_true.mpr (dropWhile_nil_all h))
    have hsw : (dwt ++ '/' :: []).takeWhile isSlash ++ (dwt ++ '/' :: []).dropWhile isSlash
        = dwt ++ '/' :: [] := List.takeWhile_append_dropWhile _ _
    -- the dropped part ends with the final slash of the head
    obtain hcon | ⟨t0, ce, hcon⟩ := ((dwt ++ '/' :: []).dropWhile isSlash).eq_nil_or_concat
    · exact absurd hcon htRne
    · rw [List.concat_eq_append] at hcon
      have hce : ce = '/' := by
        have h5 := congrArg List.getLast? hsw
        rw [hcon] at h5
        rw [← List.append_assoc] at h5
        rw [List.getLast?_concat] at h5
        have h6 : (dwt ++ '/' :: []).getLast? = some '/' := List.getLast?_concat _
        rw [h6] at h5
        exact Option.some.inj h5
      -- head of the dropped part is not a slash
      have hhead : isSlash (((dwt ++ '/' :: []).dropWhile isSlash).headD ' ') = false :=
        dropWhile_head_not rfl htRne
      obtain ⟨c0, tl, htR⟩ : ∃ c0 tl, (dwt ++ '/' :: []).dropWhile isSlash = c0 :: tl := by
        cases h : (dwt ++ '/' :: []).dropWhile isSlash with
        | nil => exact absurd h htRne
        | cons a l => exact ⟨a, l, rfl⟩
      have hc0 : isSlash c0 = false := by
        rw [htR] at hhead
        simpa using hhead
      -- dirname is absolute
      have habsd : isAbsPath (((dwt ++ '/' :: []).dropWhile isSlash).reverse) = true := by
        rw [hcon, hce]
        simp [isAbsPath, isSlash]
      -- dirname does not end with a slash
      have hewf : strEndsWith (((dwt ++ '/' :: []).dropWhile isSlash).reverse) (str "/") = false := by
        have h7 : (((dwt ++ '/' :: []).dropWhile isSlash).reverse).reverse = c0 :: tl := by
          rw [List.reverse_reverse, htR]
        rw [strEndsWith_slash_head h7]
        simpa [isSlash] using hc0
      -- the taken slashes are nonempty and all slashes
      have hswne : (dwt ++ '/' :: []).takeWhile isSlash ≠ [] := by
        have hdWne : dwt ++ '/' :: [] ≠ [] := by simp
        have hdh : isSlash ((dwt ++ '/' :: []).headD ' ') = true := by
          have h8 : (fun c => !isSlash c) ((dwt ++ '/' :: []).headD ' ') = false := by
            have h9 : ('/' :: rt).reverse.dropWhile (fun c => !isSlash c) = dwt ++ '/' :: [] := hdW
            exact dropWhile_head_not h9 (by simp)
          simpa using h8
        cases h : dwt ++ '/' :: [] with
        | nil => exact absurd h (by simp)
        | cons a l =>
          rw [h] at hdh
          simp only [List.headD_cons] at hdh
          rw [List.takeWhile_cons, hdh]
          simp
      have hswall : ∀ c ∈ (dwt ++ '/' :: []).takeWhile isSlash, isSlash c = true :=
        fun c hc => mem_takeWhile_slash hc
      -- decompose the reversed slash run
      obtain ⟨w, hswrev⟩ : ∃ w, ((dwt ++ '/' :: []).takeWhile isSlash).reverse = '/' :: w := by
        cases h : ((dwt ++ '/' :: []).takeWhile isSlash).reverse with
        | nil =>
          exact absurd (by simpa using congrArg List.reverse h) hswne
        | cons e w =>
          have he : e ∈ (dwt ++ '/' :: []).takeWhile isSlash := by
            have : e ∈ ((dwt ++ '/' :: []).takeWhile isSlash).reverse := by rw [h]; simp
            exact List.mem_reverse.mp this
          have : e = '/' := by simpa [isSlash] using hswall e he
          exact ⟨w, by rw [← this]⟩
      have hwall : ∀ c ∈ w, isSlash c = true := by
        intro c hc
        have : c ∈ ((dwt ++ '/' :: []).takeWhile isSlash).reverse := by
          rw [hswrev]; simp [hc]
        exact hswall c (List.mem_reverse.mp this)
      -- reassemble the full path from dirname, the slash run, and basename
      have hr3 : '/' :: rt = ((dwt ++ '/' :: []).dropWhile isSlash).reverse
          ++ ('/' :: (w ++ twt.reverse)) := by
        have h4 := congrArg List.reverse hsw
        simp only [List.reverse_append] at h4
        have h10 : ((dwt ++ '/' :: []).dropWhile isSlash).reverse
            ++ ((dwt ++ '/' :: []).takeWhile isSlash).reverse = '/' :: dwt.reverse := by
          rw [h4]; simp
        calc '/' :: rt = ('/' :: dwt.reverse) ++ twt.reverse := by
              rw [hrt]; simp
          _ = (((dwt ++ '/' :: []).dropWhile isSlash).reverse
              ++ ((dwt ++ '/' :: []).takeWhile isSlash).reverse) ++ twt.reverse := by
              rw [h10]
          _ = ((dwt ++ '/' :: []).dropWhile isSlash).reverse
              ++ ('/' :: (w ++ twt.reverse)) := by
              rw [hswrev]; simp
      constructor
      · rw [hd]; exact habsd
      · rw [hd, hb]
        unfold tarJoinName
        rw [hewf]
        simp only [Bool.false_eq_true, if_false]
        rw [hr3]
        have hdform : ((dwt ++ '/' :: []).dropWhile isSlash).reverse = '/' :: t0.reverse := by
          rw [hcon, hce]
          simp
        rw [hdform]
        simp only [normPath, Prod.mk.injEq]
        constructor
        · simp [isAbsPath, isSlash]
        · rw [normSegs_append_slash, normSegs_append_slash,
              normSegs_slashes w twt.reverse hwall]

theorem osBasename_append_slash (a b : Str) : osBasename (a ++ '/' :: b) = osBasename b := by
  unfold osBasename
  have h1 : (a ++ '/' :: b).reverse = b.reverse ++ '/' :: a.reverse := by
    simp
  rw [h1, takeWhile_no_slash_append]

theorem osBasename_join {wd : Str} (p : Str) (hwd : isAbsPath wd = true) :
    osBasename (if isAbsPath p then p else osPathJoin wd p) = osBasename p := by
  by_cases hp : isAbsPath p = true
  · rw [if_pos hp]
  · rw [if_neg (by simpa using hp)]
    unfold osPathJoin
    rw [if_neg (by simpa using hp)]
    by_cases hew : strEndsWith wd (str "/") = true
    · obtain ⟨u, rfl⟩ := endsWith_slash_decomp hew
      have h2 : (u ++ ['/']) ++ p = u ++ '/' :: p := by simp
      simp [hew, h2, osBasename_append_slash]
    · have hne : (decide (wd = [])) = false := by
        cases wd with
        | nil => simp [isAbsPath] at hwd
        | cons c t => simp
      have hewf : strEndsWith wd (str "/") = false := by simpa using hew
      simp [hne, hewf, osBasename_append_slash]

theorem isAbsPath_resolved {wd : Str} (p : Str) (hwd : isAbsPath wd = true) :
    isAbsPath (if isAbsPath p then p else osPathJoin wd p) = true := by
  by_cases hp : isAbsPath p = true
  · rw [if_pos hp]; exact hp
  · rw [if_neg (by simpa using hp)]
    unfold osPathJoin
    rw [if_neg (by simpa using hp)]
    obtain ⟨t, rfl⟩ := abs_eq_slash_cons hwd
    split
    · simp [isAbsPath, isSlash]
    · simp [isAbsPath, isSlash]

theorem abs_ne_nil {p : Str} (h : isAbsPath p = true) : p ≠ [] := by
  cases p with
  | nil => simp [isAbsPath] at h
  | cons c t => simp


/-! ## Claim theorems -/

/-- C1: On an initialized session, executing the command "echo test"
over the canonical terminal byte stream (TTY echo of the sent command
line, the output line, the exit-code line, the trailing prompt marker)
returns exactly "test" after whitespace trimming: the echoed command
line, the exit-status probe, the exit-code digit line and the prompt
marker are all absent from the result, and the only bytes written to
the stream are the single framed command line. -/
theorem echo_test_execute_returns_test :
    dockerExecute ⟨true, []⟩ (str "echo test") (some 60) false
      [str "bash -c 'echo test' && echo $?\r\ntest\r\n0\r\n$ "]
      = (.ok (str "test"),
         ⟨true, [str "bash -c 'echo test' && echo $?\n"]⟩) := by
  decide

/-- C9: In the session's output-reading loop, every complete line past
the echoed command whose stripped content is purely digits is dropped
from the result, so a command whose legitimate output is a numeric line
("echo 7") yields an empty result with the "7" missing. -/
theorem digit_only_lines_discarded :
    (∀ (st : RdState) (line : Str), st.commandSent = true →
        isDigitStr (stripWs (rstripCr line)) = true → procLine st line = st) ∧
    (dockerExecute ⟨true, []⟩ (str "echo 7") (some 60) false
        [str "bash -c 'echo 7' && echo $?\r\n7\r\n0\r\n$ "]).1 = .ok [] := by
  constructor
  · intro st line h1 h2
    simp [procLine, h1, h2]
  · decide

/-- C9 witness: a concrete digit-only line is dropped by the line
processor once the echoed command line has been consumed. -/
theorem digit_only_lines_discarded_witness :
    procLine ⟨[], [], true⟩ (str "7") = ⟨[], [], true⟩ :=
  digit_only_lines_discarded.1 ⟨[], [], true⟩ (str "7") rfl (by decide)

/-- C6: A command whose lower-cased text contains a deny-listed
substring makes execute fail with the rejection message, with the
session's sent trace unchanged: nothing is written to the stream, so
the container never receives the command. -/
theorem denylisted_command_rejected_before_send
    (st : DockerSessionState) (command risky : Str) (timeout : Option Nat)
    (timesOut : Bool) (stream : List Str)
    (hs : st.socketOpen = true) (hr : findRisky command = some risky) :
    dockerExecute st command timeout timesOut stream
      = (.error (.runtimeError (str "Failed to execute command: "
          ++ (str "Command contains potentially dangerous operation: " ++ risky))),
         st) := by
  simp [dockerExecute, hs, sanitizeCommand, hr, errMsg]

/-- C6 witness: the literal "rm -rf /" command is rejected with nothing
sent. -/
theorem denylisted_command_rejected_before_send_witness :
    dockerExecute ⟨true, []⟩ (str "rm -rf / ") none false []
      = (.error (.runtimeError (str "Failed to execute command: "
          ++ (str "Command contains potentially dangerous operation: "
            ++ str "rm -rf /"))),
         ⟨true, []⟩) :=
  denylisted_command_rejected_before_send ⟨true, []⟩ (str "rm -rf / ")
    (str "rm -rf /") none false [] rfl (by decide)

/-- C2 counterexample: the Docker terminal session has no timed-out
latch.  After a command times out on the session, the very next execute
call on the same session state proceeds normally and succeeds, instead
of refusing until a restart. -/
theorem timeout_not_latched_counterexample :
    (dockerExecute ⟨true, []⟩ (str "sleep 10") (some 1) true []).1
      = .error (.timeoutError (str "Command execution timed out after "
          ++ Nat.toDigits 10 1 ++ str " seconds")) ∧
    (dockerExecute (dockerExecute ⟨true, []⟩ (str "sleep 10") (some 1) true []).2
        (str "echo test") (some 60) false
        [str "bash -c 'echo test' && echo $?\r\ntest\r\n0\r\n$ "]).1
      = .ok (str "test") := by
  decide

/-- C2 (amended): exceeding a supplied timeout cancels the read loop
and raises a timeout-kind error in both session implementations, but
only the tool-level bash session latches a timed-out flag that makes
every subsequent run call refuse until the session is restarted; the
Docker terminal session keeps no such flag and its state after a
timeout still passes the only guard of execute. -/
theorem timeout_latch_amended :
    (∀ (st : BashState) (errBuf : Str), st.started = true →
        st.returncode = none → st.timedOut = false →
        bashRun st none errBuf
          = (.toolErr bashTimeoutMsg, { st with timedOut := true })) ∧
    (∀ (st : BashState) (stdoutBuf : Option Str) (errBuf : Str),
        st.started = true → st.returncode = none → st.timedOut = true →
        bashRun st stdoutBuf errBuf = (.toolErr bashTimeoutMsg, st)) ∧
    bashFreshSession.timedOut = false ∧
    (∀ (st : DockerSessionState) (command : Str) (t : Nat) (stream : List Str),
        st.socketOpen = true → findRisky command = none →
        timeoutActive (some t) = true →
        (dockerExecute st command (some t) true stream).1
          = .error (.timeoutError (str "Command execution timed out after "
              ++ Nat.toDigits 10 t ++ str " seconds")) ∧
        (dockerExecute st command (some t) true stream).2.socketOpen
          = st.socketOpen) := by
  refine ⟨?_, ?_, rfl, ?_⟩
  · intro st errBuf h1 h2 h3
    simp [bashRun, h1, h2, h3]
  · intro st stdoutBuf errBuf h1 h2 h3
    simp [bashRun, h1, h2, h3]
  · intro st command t stream h1 h2 h3
    constructor <;> simp [dockerExecute, h1, sanitizeCommand, h2, h3]

/-- C2 witness: concrete timeout latching in the bash session and a
concrete docker-session timeout. -/
theorem timeout_latch_amended_witness :
    bashRun ⟨true, none, false⟩ none []
      = (.toolErr bashTimeoutMsg, ⟨true, none, true⟩) ∧
    bashRun ⟨true, none, true⟩ (some (str "ok")) []
      = (.toolErr bashTimeoutMsg, ⟨true, none, true⟩) ∧
    (dockerExecute ⟨true, []⟩ (str "sleep 5") (some 3) true []).1
      = .error (.timeoutError (str "Command execution timed out after "
          ++ Nat.toDigits 10 3 ++ str " seconds")) :=
  ⟨timeout_latch_amended.1 ⟨true, none, false⟩ [] rfl rfl rfl,
   timeout_latch_amended.2.1 ⟨true, none, true⟩ (some (str "ok")) [] rfl rfl rfl,
   (timeout_latch_amended.2.2.2 ⟨true, []⟩ (str "sleep 5") 3 [] rfl (by decide)
      (by decide)).1⟩

/-- C3: Every failure point inside sandbox creation (host-config
preparation, container create, container start, terminal init) leads to
cleanup of whatever partial state exists and then a single wrapped
creation error carrying the cause; the resulting instance references
neither a container nor a terminal. -/
theorem create_failure_cleans_up (st : SbState) (step : CreateStep)
    (f : TeardownFail) :
    (sbCreate st (some step) f).1
      = .error (.runtimeError (str "Failed to create sandbox: "
          ++ createCause step)) ∧
    (sbCreate st (some step) f).2.container = false ∧
    (sbCreate st (some step) f).2.terminal = false := by
  obtain ⟨c, t, fs⟩ := st
  cases step <;> cases c <;> cases t <;>
    simp [sbCreate, sbCleanup, createCause]

/-- C7: cleanup is a total function of the state (it never raises), it
always drops both references while leaving the file store untouched,
its diagnostics are exactly the messages of the attempted sub-steps
that failed (a failing sub-step never prevents the later ones), and a
second cleanup on the result — or a cleanup of a never-created sandbox —
does nothing and reports no errors. -/
theorem cleanup_never_raises_and_is_idempotent (st : SbState)
    (f f2 : TeardownFail) :
    (sbCleanup st f).1.terminal = false ∧
    (sbCleanup st f).1.container = false ∧
    (sbCleanup st f).1.cfs = st.cfs ∧
    (sbCleanup st f).2
      = (if st.terminal && f.closeF then [str "Terminal cleanup error"] else [])
        ++ (if st.container && f.stopF then [str "Container stop error"] else [])
        ++ (if st.container && f.removeF then [str "Container remove error"] else []) ∧
    sbCleanup (sbCleanup st f).1 f2 = ((sbCleanup st f).1, []) := by
  obtain ⟨c, t, fs⟩ := st
  cases c <;> cases t <;> simp [sbCleanup]

/-- C4: path resolution rejects a path exactly when one of its
slash-separated segments is "..", raising the path-safety ValueError;
otherwise an absolute path is returned unchanged and a relative path is
joined onto the configured working directory. -/
theorem safe_resolve_path_spec (workDir p : Str) :
    ((∃ e, safeResolvePath workDir p = .error e)
      ↔ str ".." ∈ splitOnChar '/' p) ∧
    (str ".." ∈ splitOnChar '/' p →
      safeResolvePath workDir p
        = .error (.valueError (str "Path contains potentially unsafe patterns"))) ∧
    (str ".." ∉ splitOnChar '/' p →
      safeResolvePath workDir p
        = .ok (if isAbsPath p then p else osPathJoin workDir p)) := by
  by_cases h : str ".." ∈ splitOnChar '/' p <;>
    simp [safeResolvePath, h]

/-- C4 witness: a traversal path is rejected, a clean relative path is
joined onto the working directory. -/
theorem safe_resolve_path_spec_witness :
    safeResolvePath (str "/workspace") (str "a/../b")
      = .error (.valueError (str "Path contains potentially unsafe patterns")) ∧
    safeResolvePath (str "/workspace") (str "a/b") = .ok (str "/workspace/a/b") := by
  constructor
  · exact (safe_resolve_path_spec (str "/workspace") (str "a/../b")).2.1 (by decide)
  · rw [(safe_resolve_path_spec (str "/workspace") (str "a/b")).2.2 (by decide)]
    decide

/-- C8: on an initialized sandbox, read_file translates engine
not-found into a FileNotFoundError naming the path, while every other
fetch or unpack failure (including an empty archive) is wrapped into a
distinct RuntimeError; a well-formed single-member archive yields its
contents. -/
theorem read_file_error_translation (st : SbState) (workDir p m : Str)
    (hc : st.container = true) (hp : str ".." ∉ splitOnChar '/' p) :
    readFileEng st workDir p .notFound
      = .error (.fileNotFound (str "File not found: " ++ p)) ∧
    readFileEng st workDir p (.failure m)
      = .error (.runtimeError (str "Failed to read file: " ++ m)) ∧
    readFileEng st workDir p (.archive [])
      = .error (.runtimeError (str "Failed to read file: "
          ++ str "Empty tar archive")) ∧
    (∀ (name content : Str) (rest : List (Str × Str)),
      readFileEng st workDir p (.archive ((name, content) :: rest))
        = .ok content) := by
  have hres : safeResolvePath workDir p
      = .ok (if isAbsPath p then p else osPathJoin workDir p) := by
    unfold safeResolvePath
    rw [if_neg hp]
  refine ⟨?_, ?_, ?_, ?_⟩
  · simp [readFileEng, hc, hres]
  · simp [readFileEng, hc, hres]
  · simp [readFileEng, hc, hres, readFromTar, errMsg]
  · intro name content rest
    simp [readFileEng, hc, hres, readFromTar]

/-- C8 witness: concrete not-found translation on an initialized empty
sandbox. -/
theorem read_file_error_translation_witness :
    readFileEng ⟨true, true, emptyCfs⟩ (str "/workspace") (str "missing.txt")
        .notFound
      = .error (.fileNotFound (str "File not found: " ++ str "missing.txt")) :=
  (read_file_error_translation ⟨true, true, emptyCfs⟩ (str "/workspace")
    (str "missing.txt") (str "boom") rfl (by decide)).1

/-- C10: path-traversal validation applies only to container-side
paths.  copy_from rejects a container source with a ".." segment but
passes any host destination — even one containing ".." — straight to
the host filesystem; copy_to rejects a container destination with a
".." segment but accepts any existing host source path unchecked. -/
theorem traversal_check_container_side_only :
    (∀ (st : SbState) (h : HostFs) (wd src dst : Str),
        str ".." ∈ splitOnChar '/' src →
        (copyFrom st h wd src dst).1
          = .error (.runtimeError (str "Failed to copy file: "
              ++ str "Path contains potentially unsafe patterns"))) ∧
    ((copyFrom sbSample hostEmpty (str "/workspace") (str "data.txt")
        (str "/tmp/../../etc/passwd")).1 = .ok () ∧
      (copyFrom sbSample hostEmpty (str "/workspace") (str "data.txt")
        (str "/tmp/../../etc/passwd")).2.files (str "/tmp/../../etc/passwd")
        = some (str "payload")) ∧
    (∀ (st : SbState) (h : HostFs) (wd src dst : Str),
        hostExists h src = true →
        str ".." ∈ splitOnChar '/' dst →
        (copyTo st h wd src dst).1
          = .error (.runtimeError (str "Failed to copy file: "
              ++ str "Path contains potentially unsafe patterns"))) ∧
    ((copyTo sbEmpty hostSample (str "/workspace")
        (str "/host/../secrets/key.txt") (str "data.txt")).1 = .ok () ∧
      (copyTo sbEmpty hostSample (str "/workspace")
        (str "/host/../secrets/key.txt") (str "data.txt")).2.cfs
          (normPath (str "/workspace/data.txt"))
        = some (str "hostdata")) := by
  refine ⟨?_, ⟨by decide, by decide⟩, ?_, ⟨by decide, by decide⟩⟩
  · intro st h wd src dst hsrc
    have hres : safeResolvePath wd src
        = .error (.valueError (str "Path contains potentially unsafe patterns")) := by
      unfold safeResolvePath
      rw [if_pos hsrc]
    simp [copyFrom, hres, errMsg]
  · intro st h wd src dst hex hdst
    have hres : safeResolvePath wd dst
        = .error (.valueError (str "Path contains potentially unsafe patterns")) := by
      unfold safeResolvePath
      rw [if_pos hdst]
    simp [copyTo, hex, hres, errMsg]

/-- C10 witness: a dotted container source is rejected by copy_from and
a dotted container destination by copy_to, at concrete inputs. -/
theorem traversal_check_container_side_only_witness :
    (copyFrom sbSample hostEmpty (str "/workspace") (str "../x")
        (str "/tmp/out")).1
      = .error (.runtimeError (str "Failed to copy file: "
          ++ str "Path contains potentially unsafe patterns")) ∧
    (copyTo sbEmpty hostSample (str "/workspace")
        (str "/host/../secrets/key.txt") (str "../y")).1
      = .error (.runtimeError (str "Failed to copy file: "
          ++ str "Path contains potentially unsafe patterns")) :=
  ⟨traversal_check_container_side_only.1 sbSample hostEmpty (str "/workspace")
      (str "../x") (str "/tmp/out") (by decide),
   traversal_check_container_side_only.2.2.1 sbEmpty hostSample (str "/workspace")
      (str "/host/../secrets/key.txt") (str "../y") (by decide) (by decide)⟩

/-- C5 counterexample: the path "mkfs/f" contains no ".." segment, yet
write_file on it fails — its internal mkdir of the parent directory is
routed through the command deny-list, which matches the "mkfs"
substring — so the write/read round trip does not return the written
content. -/
theorem roundtrip_counterexample :
    str ".." ∉ splitOnChar '/' (str "mkfs/f") ∧
    (writeFile sbEmpty (str "/workspace") (str "mkfs/f") (str "hello")).1
      = .error (.runtimeError (str "Failed to write file: "
          ++ (str "Failed to execute command: "
          ++ (str "Command contains potentially dangerous operation: "
            ++ str "mkfs")))) ∧
    readFile (writeFile sbEmpty (str "/workspace") (str "mkfs/f") (str "hello")).2
        (str "/workspace") (str "mkfs/f")
      ≠ .ok (str "hello") := by
  decide

/-- C5 (amended): for every path without a ".." segment whose resolved
parent directory yields a deny-list-clean mkdir command, write_file
followed by read_file on the same initialized sandbox returns exactly
the written content (round trip through the single-entry archive
encoding and back). -/
theorem write_read_roundtrip (fs : Cfs) (wd p content : Str)
    (hwd : isAbsPath wd = true)
    (hp : str ".." ∉ splitOnChar '/' p)
    (hmk : findRisky (str "mkdir -p "
      ++ osDirname (if isAbsPath p then p else osPathJoin wd p)) = none) :
    (writeFile ⟨true, true, fs⟩ wd p content).1 = .ok () ∧
    readFile (writeFile ⟨true, true, fs⟩ wd p content).2 wd p = .ok content := by
  have hres : safeResolvePath wd p
      = .ok (if isAbsPath p then p else osPathJoin wd p) := by
    unfold safeResolvePath
    rw [if_neg hp]
  set rp := if isAbsPath p then p else osPathJoin wd p with hrp
  have habs : isAbsPath rp = true := isAbsPath_resolved p hwd
  obtain ⟨hdabs, hkey⟩ := dirname_reconstruct habs
  have hdne : osDirname rp ≠ [] := abs_ne_nil hdabs
  have hbase : osBasename p = osBasename rp := (osBasename_join p hwd).symm
  have hgate : runCommandGate ⟨true, true, fs⟩ (str "mkdir -p " ++ osDirname rp)
      = .ok () := by
    unfold runCommandGate
    simp [hmk]
  have hK : normPath (tarJoinName (osDirname rp) (osBasename p)) = normPath rp := by
    rw [hbase]; exact hkey
  have hw : writeFile ⟨true, true, fs⟩ wd p content
      = (.ok (), ⟨true, true,
          cfsPut fs (normPath (tarJoinName (osDirname rp) (osBasename p))) content⟩) := by
    unfold writeFile
    rw [hres]
    simp only [show (!(true : Bool)) = false from rfl, Bool.false_eq_true, if_false]
    rw [if_pos hdne, hgate]
    simp [putArchive, if_neg hdne]
  rw [hw]
  constructor
  · rfl
  · have hlook : cfsPut fs (normPath (tarJoinName (osDirname rp) (osBasename p)))
        content (normPath rp) = some content := by
      unfold cfsPut
      rw [hK]
      simp
    unfold readFile
    rw [hres]
    unfold readFileEng
    simp only [show (!(true : Bool)) = false from rfl, Bool.false_eq_true, if_false]
    rw [hres]
    unfold engOf getArchive
    rw [hlook]
    rfl

/-- C5 witness: a concrete clean path round-trips its content. -/
theorem write_read_roundtrip_witness :
    (writeFile ⟨true, true, emptyCfs⟩ (str "/workspace") (str "notes/hello.txt")
        (str "hello")).1 = .ok () ∧
    readFile (writeFile ⟨true, true, emptyCfs⟩ (str "/workspace")
        (str "notes/hello.txt") (str "hello")).2
        (str "/workspace") (str "notes/hello.txt") = .ok (str "hello") :=
  write_read_roundtrip emptyCfs (str "/workspace") (str "notes/hello.txt")
    (str "hello") (by decide) (by decide) (by decide)

end OpenManus
